import Mathlib

/-!
Verification of the browser RPC bridge (`src/lib/browser/rpc.js`) of realm-js.

The development shallowly embeds the value model, the envelope codec
(`serialize` / `deserialize`, lines 176-238), the callback registry
(`registerCallback`, `clearTestState`, `deserializeFunction`), the error and
callback branches of the request dispatcher (`sendRequest`, lines 294-372) and
the adaptive poll-timeout update (lines 307-315).  JavaScript numbers are
modelled as integers (no arithmetic is performed on them anywhere in the
embedded code), objects as ordered key/value association lists (JavaScript
object keys are unique and ordered), and reference identity of functions as an
abstract identity token carried by the `Callback` structure.
-/

namespace RealmRpc

/-- A JavaScript primitive (non-object, non-function, non-undefined) value as
it appears in the RPC protocol: `null`, booleans, numbers and strings. -/
inductive Prim
  | null
  | bool (b : Bool)
  | num (n : Int)
  | str (s : String)
deriving DecidableEq

/-- JavaScript truthiness of a primitive: `null`, `false`, `0` and `""` are
falsy, everything else is truthy. -/
def Prim.truthy : Prim → Bool
  | .null => false
  | .bool b => b
  | .num n => n != 0
  | .str s => s != ""

/-- A local callback function.  `fid` models JavaScript reference identity
(two callbacks are the same function value iff they are equal), and
`persistent` models the presence of the `persistentCallback` symbol set on the
function object (rpc.js line 31, 55). -/
structure Callback where
  fid : Nat
  persistent : Bool
deriving DecidableEq

mutual

/-- The body of a JavaScript object value, in the order `serialize` tests for
it: `Date` instances, arrays, binary buffers (`ArrayBuffer` and views), and
plain keyed objects (rpc.js lines 192-207). -/
inductive ObjBody where
  | date (t : Int)
  | arr (items : List Value)
  | bin (bytes : List (Fin 256))
  | dict (entries : List (String × Value))

/-- A JavaScript value crossing the bridge: `undefined`, a function, a
primitive, or an object.  An object optionally carries a remote-reference
handle under the private id key (`value[idKey]`, rpc.js line 187). -/
inductive Value where
  | undef
  | func (cb : Callback)
  | prim (p : Prim)
  | obj (oid : Option Prim) (body : ObjBody)
end

/-- A wire envelope, the JSON shape produced by `serialize` and consumed by
`deserialize`: `{type:'undefined'}`, `{value: primitive}`,
`{type:'function', value: index}`, `{id: handle}`, `{type:'date', value: ms}`,
`{type:'data', value: base64}`, `{value: [envelopes]}` or
`{type:'dict', keys, values}`. -/
inductive Envelope where
  | undefTag
  | prim (p : Prim)
  | funcTag (idx : Nat)
  | ref (handle : Prim)
  | dateTag (t : Int)
  | dataTag (text : String)
  | arr (items : List Envelope)
  | dictTag (keys : List String) (values : List Envelope)

/-- `registerCallback` (rpc.js lines 171-174): linear identity search via
`indexOf`; the found index when present (`key >= 0`, here `key < length`),
otherwise `push` and return the new last index. -/
def registerCallback (regs : List Callback) (cb : Callback) : Nat × List Callback :=
  let key := regs.indexOf cb
  if key < regs.length then (key, regs) else (regs.length, regs ++ [cb])

/-- `clearTestState` (rpc.js line 168), registry part: keep exactly the
callbacks carrying the `persistentCallback` symbol. -/
def clearTestState (regs : List Callback) : List Callback :=
  regs.filter (fun cb => cb.persistent)

/-- `deserializeFunction` (rpc.js lines 236-238): `registeredCallbacks[info.value]`;
an out-of-range index reads as `undefined` in JavaScript. -/
def deserializeFunction (regs : List Callback) (idx : Nat) : Value :=
  match regs[idx]? with
  | some cb => Value.func cb
  | none => Value.undef

/-- The base64 alphabet, sextet value to character. -/
def b64chars : List Char :=
  ['A','B','C','D','E','F','G','H','I','J','K','L','M','N','O','P',
   'Q','R','S','T','U','V','W','X','Y','Z','a','b','c','d','e','f',
   'g','h','i','j','k','l','m','n','o','p','q','r','s','t','u','v',
   'w','x','y','z','0','1','2','3','4','5','6','7','8','9','+','/']

/-- Character for a sextet value. -/
def b64chr (s : Nat) : Char := b64chars.getD s 'A'

/-- Sextet value of a base64 character (`64` for a character outside the
alphabet, which never arises on encoder output). -/
def b64val (c : Char) : Nat := b64chars.indexOf c

/-- Clamp a natural number into a byte. -/
def mkByte (n : Nat) : Fin 256 := ⟨n % 256, Nat.mod_lt _ (by omega)⟩

/-- Modelled from the spec: `base64.encode` from `lib/browser/base64.js`, which
is not under `src/`; the spec states binary buffers are carried as
"base64-text" (`{type: binary, value: base64-text}`), so this is standard
base64 with `=` padding over the byte list, three bytes per four characters. -/
def b64encodeBytes : List (Fin 256) → List Char
  | [] => []
  | [a] => [b64chr (a.val / 4), b64chr (a.val % 4 * 16), '=', '=']
  | [a, b] => [b64chr (a.val / 4), b64chr (a.val % 4 * 16 + b.val / 16),
               b64chr (b.val % 16 * 4), '=']
  | a :: b :: c :: rest =>
      b64chr (a.val / 4) :: b64chr (a.val % 4 * 16 + b.val / 16) ::
      b64chr (b.val % 16 * 4 + c.val / 64) :: b64chr (c.val % 64) ::
      b64encodeBytes rest

/-- Modelled from the spec: `base64.decode` from `lib/browser/base64.js`, which
is not under `src/`; the converter for the binary tag is
`({value}) => base64.decode(value)` (rpc.js line 45).  Standard base64
decoding, four characters per three bytes, honouring `=` padding. -/
def b64decodeChars : List Char → List (Fin 256)
  | c1 :: c2 :: c3 :: c4 :: rest =>
      let s1 := b64val c1
      let s2 := b64val c2
      if c3 = '=' then [mkByte (s1 * 4 + s2 / 16)]
      else
        let s3 := b64val c3
        if c4 = '=' then [mkByte (s1 * 4 + s2 / 16), mkByte (s2 % 16 * 16 + s3 / 4)]
        else
          mkByte (s1 * 4 + s2 / 16) :: mkByte (s2 % 16 * 16 + s3 / 4) ::
          mkByte (s3 % 4 * 64 + b64val c4) :: b64decodeChars rest
  | _ => []

/-- `base64.encode` on a byte buffer, producing the wire string. -/
def b64encode (bytes : List (Fin 256)) : String := String.mk (b64encodeBytes bytes)

/-- `base64.decode` on the wire string. -/
def b64decode (s : String) : List (Fin 256) := b64decodeChars s.data

/-- Every alphabet character decodes back to its sextet value. -/
theorem b64val_b64chr (s : Nat) (h : s < 64) : b64val (b64chr s) = s := by
  interval_cases s <;> decide

/-- No alphabet character is the padding character. -/
theorem b64chr_ne_pad (s : Nat) (h : s < 64) : b64chr s ≠ '=' := by
  interval_cases s <;> decide

/-- Clamping at the byte values produced by base64 decoding recovers the
original byte. -/
theorem mkByte_eq (a : Fin 256) (n : Nat) (h : n = a.val) : mkByte n = a := by
  apply Fin.ext
  have := a.isLt
  simp only [mkByte]
  omega

/-- Base64 decoding inverts base64 encoding on every byte list. -/
theorem b64decode_b64encode (bytes : List (Fin 256)) :
    b64decodeChars (b64encodeBytes bytes) = bytes := by
  induction bytes using b64encodeBytes.induct with
  | case1 => rfl
  | case2 a =>
      have ha := a.isLt
      have e1 : b64val (b64chr (a.val / 4)) = a.val / 4 :=
        b64val_b64chr _ (by omega)
      have e2 : b64val (b64chr (a.val % 4 * 16)) = a.val % 4 * 16 :=
        b64val_b64chr _ (by omega)
      simp only [b64encodeBytes, b64decodeChars, e1, e2, reduceIte]
      rw [mkByte_eq a _ (by omega)]
  | case3 a b =>
      have ha := a.isLt
      have hb := b.isLt
      have e1 : b64val (b64chr (a.val / 4)) = a.val / 4 :=
        b64val_b64chr _ (by omega)
      have e2 : b64val (b64chr (a.val % 4 * 16 + b.val / 16))
          = a.val % 4 * 16 + b.val / 16 := b64val_b64chr _ (by omega)
      have e3 : b64val (b64chr (b.val % 16 * 4)) = b.val % 16 * 4 :=
        b64val_b64chr _ (by omega)
      have n3 : b64chr (b.val % 16 * 4) ≠ '=' := b64chr_ne_pad _ (by omega)
      simp only [b64encodeBytes, b64decodeChars, e1, e2, e3, if_neg n3, reduceIte]
      rw [mkByte_eq a _ (by omega), mkByte_eq b _ (by omega)]
  | case4 a b c rest ih =>
      have ha := a.isLt
      have hb := b.isLt
      have hc := c.isLt
      have e1 : b64val (b64chr (a.val / 4)) = a.val / 4 :=
        b64val_b64chr _ (by omega)
      have e2 : b64val (b64chr (a.val % 4 * 16 + b.val / 16))
          = a.val % 4 * 16 + b.val / 16 := b64val_b64chr _ (by omega)
      have e3 : b64val (b64chr (b.val % 16 * 4 + c.val / 64))
          = b.val % 16 * 4 + c.val / 64 := b64val_b64chr _ (by omega)
      have e4 : b64val (b64chr (c.val % 64)) = c.val % 64 :=
        b64val_b64chr _ (by omega)
      have n3 : b64chr (b.val % 16 * 4 + c.val / 64) ≠ '=' :=
        b64chr_ne_pad _ (by omega)
      have n4 : b64chr (c.val % 64) ≠ '=' := b64chr_ne_pad _ (by omega)
      simp only [b64encodeBytes, b64decodeChars, e1, e2, e3, e4,
        if_neg n3, if_neg n4]
      rw [ih, mkByte_eq a _ (by omega), mkByte_eq b _ (by omega),
        mkByte_eq c _ (by omega)]

/-- String-level base64 round trip. -/
theorem b64decode_b64encode_str (bytes : List (Fin 256)) :
    b64decode (b64encode bytes) = bytes := b64decode_b64encode bytes

mutual

/-- `serialize(realmId, value)` (rpc.js lines 176-208), with the registry
threaded explicitly (`registerCallback` mutates the module-level list).  The
branches in source order: `undefined`; functions (register, emit the index);
falsy values and non-objects (`{value}`); a truthy private id key
(`{id}` passthrough); then `Date`, arrays, binary buffers, and plain objects.
`realmId` is omitted: it is only forwarded, never consulted, in this file. -/
def serialize (regs : List Callback) : Value → Envelope × List Callback
  | .undef => (.undefTag, regs)
  | .func cb =>
      let r := registerCallback regs cb
      (.funcTag r.1, r.2)
  | .prim p => (.prim p, regs)
  | .obj oid body =>
      match oid with
      | some h => if h.truthy then (.ref h, regs) else serializeBody regs body
      | none => serializeBody regs body

/-- The object branches of `serialize` (rpc.js lines 192-207), reached when
`value[idKey]` is absent or falsy. -/
def serializeBody (regs : List Callback) : ObjBody → Envelope × List Callback
  | .date t => (.dateTag t, regs)
  | .arr items =>
      let r := serializeList regs items
      (.arr r.1, r.2)
  | .bin bytes => (.dataTag (b64encode bytes), regs)
  | .dict entries =>
      let r := serializeEntries regs entries
      (.dictTag (entries.map Prod.fst) r.1, r.2)

/-- `value.map(item => serialize(realmId, item))` (rpc.js line 197): the
registry mutations thread left to right through the array. -/
def serializeList (regs : List Callback) :
    List Value → List Envelope × List Callback
  | [] => ([], regs)
  | v :: vs =>
      let r := serialize regs v
      let rs := serializeList r.2 vs
      (r.1 :: rs.1, rs.2)

/-- `keys.map(key => serialize(realmId, value[key]))` (rpc.js line 206):
serialize the values of a plain object in key order. -/
def serializeEntries (regs : List Callback) :
    List (String × Value) → List Envelope × List Callback
  | [] => ([], regs)
  | (_, v) :: es =>
      let r := serialize regs v
      let rs := serializeEntries r.2 es
      (r.1 :: rs.1, rs.2)

end

mutual

/-- `deserialize(realmId, info)` (rpc.js lines 210-223) together with the type
converters registered at module load (lines 45-48).  `{type:'undefined'}` has
no registered converter and no `value` field, so the fallback returns
`undefined`; likewise `{id}` (no type, no value).  `{type:'function'}`
resolves the registry index; dates, binary data and dicts go through their
converters; an array-valued `value` is mapped recursively; a primitive
`value` is returned unchanged. -/
def deserialize (regs : List Callback) : Envelope → Value
  | .undefTag => .undef
  | .prim p => .prim p
  | .funcTag idx => deserializeFunction regs idx
  | .ref _ => .undef
  | .dateTag t => .obj none (.date t)
  | .dataTag text => .obj none (.bin (b64decode text))
  | .arr items => .obj none (.arr (deserializeList regs items))
  | .dictTag ks vs => .obj none (.dict (deserializeDict regs ks vs))

/-- `value.map(item => deserialize(realmId, item))` (rpc.js line 219). -/
def deserializeList (regs : List Callback) : List Envelope → List Value
  | [] => []
  | e :: es => deserialize regs e :: deserializeList regs es

/-- `deserializeDict` (rpc.js lines 225-234): rebuild the object by assigning
`keys[i] := deserialize(values[i])` in order.  Envelopes produced by
`serialize` always carry equally long `keys` and `values`; JavaScript object
keys are unique, so ordered pairing models the assignments faithfully. -/
def deserializeDict (regs : List Callback) :
    List String → List Envelope → List (String × Value)
  | [], _ => []
  | _ :: _, [] => []
  | k :: ks, v :: vs => (k, deserialize regs v) :: deserializeDict regs ks vs

end

mutual

/-- The representable values of claim C1: anything built from `undefined`,
primitives, dates, binary buffers, arrays and plain keyed objects — no
callables, no remote references (no private id key at all), and unique object
keys as JavaScript objects guarantee. -/
def Value.representable : Value → Bool
  | .undef => true
  | .func _ => false
  | .prim _ => true
  | .obj (some _) _ => false
  | .obj none body => body.representable

/-- Representability of an object body. -/
def ObjBody.representable : ObjBody → Bool
  | .date _ => true
  | .bin _ => true
  | .arr items => repList items
  | .dict entries =>
      decide ((entries.map Prod.fst).Nodup) && repEntries entries

/-- Representability of every element of an array. -/
def repList : List Value → Bool
  | [] => true
  | v :: vs => v.representable && repList vs

/-- Representability of every value of a plain object. -/
def repEntries : List (String × Value) → Bool
  | [] => true
  | (_, v) :: es => v.representable && repEntries es

end

mutual

/-- Round trip for representable values, with arbitrary serialization-time and
deserialization-time registries. -/
theorem rt_value : ∀ (v : Value), v.representable = true →
    ∀ (regs R : List Callback), deserialize R (serialize regs v).1 = v
  | .undef, _, _, _ => rfl
  | .prim _, _, _, _ => rfl
  | .func _, h, _, _ => by simp [Value.representable] at h
  | .obj (some _) _, h, _, _ => by simp [Value.representable] at h
  | .obj none body, h, regs, R => by
      have hb : body.representable = true := h
      simp only [serialize]
      rw [rt_body body hb regs R]

/-- Round trip for the object branches. -/
theorem rt_body : ∀ (b : ObjBody), b.representable = true →
    ∀ (regs R : List Callback),
      deserialize R (serializeBody regs b).1 = Value.obj none b
  | .date _, _, _, _ => rfl
  | .bin bytes, _, regs, R => by
      simp only [serializeBody, deserialize, b64decode_b64encode_str]
  | .arr items, h, regs, R => by
      have hl : repList items = true := h
      simp only [serializeBody, deserialize]
      rw [rt_list items hl regs R]
  | .dict entries, h, regs, R => by
      simp only [ObjBody.representable, Bool.and_eq_true] at h
      simp only [serializeBody, deserialize]
      rw [rt_entries entries h.2 regs R]

/-- Round trip for array elements. -/
theorem rt_list : ∀ (items : List Value), repList items = true →
    ∀ (regs R : List Callback),
      deserializeList R (serializeList regs items).1 = items
  | [], _, _, _ => rfl
  | v :: vs, h, regs, R => by
      simp only [repList, Bool.and_eq_true] at h
      simp only [serializeList, deserializeList]
      rw [rt_value v h.1 regs R, rt_list vs h.2 (serialize regs v).2 R]

/-- Round trip for the entries of a plain object. -/
theorem rt_entries : ∀ (es : List (String × Value)), repEntries es = true →
    ∀ (regs R : List Callback),
      deserializeDict R (es.map Prod.fst) (serializeEntries regs es).1 = es
  | [], _, _, _ => rfl
  | (k, v) :: es, h, regs, R => by
      simp only [repEntries, Bool.and_eq_true] at h
      simp only [serializeEntries, List.map_cons, deserializeDict]
      rw [rt_value v h.1 regs R, rt_entries es h.2 (serialize regs v).2 R]

end

/-- When the callback is already registered, `registerCallback` returns its
existing index and leaves the registry unchanged. -/
theorem registerCallback_of_mem {regs : List Callback} {cb : Callback}
    (h : cb ∈ regs) : registerCallback regs cb = (regs.indexOf cb, regs) := by
  simp [registerCallback, List.indexOf_lt_length.2 h]

/-- When the callback is new, `registerCallback` appends it and returns the
previous length as its index. -/
theorem registerCallback_of_not_mem {regs : List Callback} {cb : Callback}
    (h : cb ∉ regs) : registerCallback regs cb = (regs.length, regs ++ [cb]) := by
  have he : regs.indexOf cb = regs.length := List.indexOf_eq_length.2 h
  simp [registerCallback, he]

/-- The returned index resolves to the registered callback. -/
theorem registerCallback_getElem (regs : List Callback) (cb : Callback) :
    (registerCallback regs cb).2[(registerCallback regs cb).1]? = some cb := by
  by_cases h : cb ∈ regs
  · rw [registerCallback_of_mem h]
    exact List.getElem?_indexOf h
  · rw [registerCallback_of_not_mem h]
    exact List.getElem?_concat_length regs cb

/-- The returned index is inside the updated registry. -/
theorem registerCallback_idx_lt (regs : List Callback) (cb : Callback) :
    (registerCallback regs cb).1 < (registerCallback regs cb).2.length := by
  rcases List.getElem?_eq_some_iff.1 (registerCallback_getElem regs cb) with ⟨h, _⟩
  exact h

/-- After registration, `indexOf` finds the callback exactly at the returned
index. -/
theorem registerCallback_indexOf_self (regs : List Callback) (cb : Callback) :
    (registerCallback regs cb).2.indexOf cb = (registerCallback regs cb).1 := by
  by_cases h : cb ∈ regs
  · rw [registerCallback_of_mem h]
  · rw [registerCallback_of_not_mem h]
    simp [List.indexOf_append_of_not_mem h]

/-- Claim C5: registering the same function value twice returns the same index
(and does not change the registry); registering two distinct function values
returns distinct indices; and an index, once returned, stays mapped to its
function across further registrations. -/
theorem registerCallback_spec (regs : List Callback) (cb1 cb2 : Callback) :
    registerCallback (registerCallback regs cb1).2 cb1 = registerCallback regs cb1 ∧
    (registerCallback regs cb1).2[(registerCallback regs cb1).1]? = some cb1 ∧
    (cb1 ≠ cb2 →
      (registerCallback (registerCallback regs cb1).2 cb2).1
        ≠ (registerCallback regs cb1).1) ∧
    (registerCallback (registerCallback regs cb1).2 cb2).2[(registerCallback regs cb1).1]?
      = some cb1 := by
  have hget : (registerCallback regs cb1).2[(registerCallback regs cb1).1]? = some cb1 :=
    registerCallback_getElem regs cb1
  have hlt : (registerCallback regs cb1).1 < (registerCallback regs cb1).2.length :=
    registerCallback_idx_lt regs cb1
  have hmem1 : cb1 ∈ (registerCallback regs cb1).2 := by
    rcases List.getElem?_eq_some_iff.1 hget with ⟨hh, he⟩
    have hm := List.getElem_mem hh
    rwa [he] at hm
  refine ⟨?_, hget, ?_, ?_⟩
  · rw [registerCallback_of_mem hmem1, registerCallback_indexOf_self regs cb1]
  · intro hne
    by_cases h2 : cb2 ∈ (registerCallback regs cb1).2
    · have hfst : (registerCallback (registerCallback regs cb1).2 cb2).1
          = (registerCallback regs cb1).2.indexOf cb2 := by
        rw [registerCallback_of_mem h2]
      rw [hfst]
      intro heq
      have h3 : (registerCallback regs cb1).2[(registerCallback regs cb1).2.indexOf cb2]?
          = some cb2 := List.getElem?_indexOf h2
      rw [heq, hget] at h3
      exact hne (Option.some_injective _ h3)
    · have hfst : (registerCallback (registerCallback regs cb1).2 cb2).1
          = (registerCallback regs cb1).2.length := by
        rw [registerCallback_of_not_mem h2]
      rw [hfst]
      intro heq
      omega
  · by_cases h2 : cb2 ∈ (registerCallback regs cb1).2
    · have hsnd : (registerCallback (registerCallback regs cb1).2 cb2).2
          = (registerCallback regs cb1).2 := by
        rw [registerCallback_of_mem h2]
      rw [hsnd]
      exact hget
    · have hsnd : (registerCallback (registerCallback regs cb1).2 cb2).2
          = (registerCallback regs cb1).2 ++ [cb2] := by
        rw [registerCallback_of_not_mem h2]
      rw [hsnd, List.getElem?_append_left hlt]
      exact hget

/-- Witness for claim C5 at a concrete pair of distinct callbacks. -/
theorem registerCallback_spec_witness :
    (registerCallback (registerCallback [] ⟨0, false⟩).2 ⟨1, false⟩).1
      ≠ (registerCallback ([] : List Callback) ⟨0, false⟩).1 :=
  (registerCallback_spec [] ⟨0, false⟩ ⟨1, false⟩).2.2.1 (by decide)

/-- Claim C3 (amended): `clearTestState` keeps exactly the persistent entries;
resolving a handle afterwards fails as unresolved whenever the handle is at
least the number of persistent entries of the prior registry — in particular
whenever every persistent entry was registered before it. -/
theorem clearTestState_spec (regs : List Callback) :
    (∀ cb : Callback, cb ∈ clearTestState regs ↔
      cb ∈ regs ∧ cb.persistent = true) ∧
    (∀ h : Nat, regs.countP (fun cb => cb.persistent) ≤ h →
      deserializeFunction (clearTestState regs) h = Value.undef) := by
  constructor
  · intro cb
    simp [clearTestState, List.mem_filter]
  · intro h hle
    have hlen : (clearTestState regs).length ≤ h := by
      rw [clearTestState, ← List.countP_eq_length_filter]
      exact hle
    unfold deserializeFunction
    rw [List.getElem?_eq_none hlen]

/-- Witness for claim C3 (amended) at a concrete registry. -/
theorem clearTestState_spec_witness :
    deserializeFunction (clearTestState [⟨5, true⟩, ⟨6, false⟩]) 1 = Value.undef :=
  (clearTestState_spec [⟨5, true⟩, ⟨6, false⟩]).2 1 (by decide)

/-- Claim C3 counterexample: with a non-persistent callback registered at
index 0 ahead of a persistent one, handle 0 referred to a cleared entry, yet
after `clearTestState` it still resolves — to the retained persistent
callback, not to "unresolved" (`undefined`). -/
theorem clearTestState_counterexample :
    ((⟨0, false⟩ : Callback) ∈ ([⟨0, false⟩, ⟨1, true⟩] : List Callback)) ∧
    (⟨0, false⟩ : Callback).persistent = false ∧
    deserializeFunction (clearTestState [⟨0, false⟩, ⟨1, true⟩]) 0
      = Value.func ⟨1, true⟩ ∧
    deserializeFunction (clearTestState [⟨0, false⟩, ⟨1, true⟩]) 0 ≠ Value.undef := by
  have h3 : deserializeFunction (clearTestState [⟨0, false⟩, ⟨1, true⟩]) 0
      = Value.func ⟨1, true⟩ := rfl
  exact ⟨by decide, rfl, h3, fun hc => Value.noConfusion (h3.symm.trans hc)⟩

/-- Claim C10: the remote-reference passthrough applies only to truthy
handles; with a falsy handle under the private id key, `serialize` falls
through to the object branches and never emits `{id}`. -/
theorem serialize_falsy_id (regs : List Callback) (h : Prim) (body : ObjBody)
    (hf : h.truthy = false) :
    serialize regs (.obj (some h) body) = serializeBody regs body ∧
    ∀ h2 : Prim, (serializeBody regs body).1 ≠ Envelope.ref h2 := by
  constructor
  · simp [serialize, hf]
  · intro h2
    cases body <;> simp [serializeBody]

/-- Witness for claim C10 at the falsy handle `0`. -/
theorem serialize_falsy_id_witness :
    serialize [] (.obj (some (.num 0)) (.date 5)) = serializeBody [] (.date 5) :=
  (serialize_falsy_id [] (.num 0) (.date 5) (by decide)).1

/-- Claim C1: for every representable value (built from `undefined`,
primitives, dates, binary buffers, ordered sequences and plain keyed objects,
excluding remote references and callables), deserializing its serialization
in the registry state `serialize` leaves behind yields the value back. -/
theorem deserialize_serialize_roundtrip (v : Value) (regs : List Callback)
    (h : v.representable = true) :
    deserialize (serialize regs v).2 (serialize regs v).1 = v :=
  rt_value v h regs (serialize regs v).2

/-- A concrete representable value exercising dicts, arrays, dates, binary
buffers, `undefined` and all primitive kinds. -/
def sampleValue : Value :=
  .obj none (.dict
    [("a", .prim (.num 1)),
     ("b", .obj none (.arr
        [.prim (.str "x"), .undef, .obj none (.date 1400000000000),
         .prim (.bool false), .prim .null])),
     ("c", .obj none (.bin [104, 105, 33]))])

/-- Witness for claim C1 at `sampleValue`. -/
theorem deserialize_serialize_roundtrip_witness :
    deserialize (serialize [] sampleValue).2 (serialize [] sampleValue).1
      = sampleValue :=
  deserialize_serialize_roundtrip sampleValue [] (by rfl)

/-- The wire form of one value inside a structured (tagged-dict) error: either
a leaf envelope, whose `.value` field is read directly, or a nested
`{type:'dict', keys, values}` envelope (rpc.js lines 283-288). -/
inductive WireJson where
  | leaf (v : Prim)
  | dict (keys : List String) (values : List WireJson)

/-- A plain JSON-like value reconstructed by `deserialize_json_value`. -/
inductive JVal where
  | prim (p : Prim)
  | dict (fields : List (String × JVal))

mutual

/-- `deserialize_json_value` (rpc.js lines 278-292): walk the parallel
`keys`/`values` sequences, recursing into values tagged `'dict'` and taking
`.value` otherwise.  The loop runs over `keys`; the wire dicts of well-formed
errors carry equally long `keys` and `values` (reading past `values` would
fault in JavaScript). -/
def deserializeJsonDict : List String → List WireJson → List (String × JVal)
  | [], _ => []
  | _ :: _, [] => []
  | k :: ks, w :: ws => (k, convertWire w) :: deserializeJsonDict ks ws

/-- Conversion of a single wire value inside a structured error. -/
def convertWire : WireJson → JVal
  | .leaf v => .prim v
  | .dict ks vs => .dict (deserializeJsonDict ks vs)

end

/-- JavaScript property read on the object built by sequential assignment:
the last assignment to a key wins. -/
def objGet (fields : List (String × JVal)) (k : String) : Option JVal :=
  fields.reverse.lookup k

/-- The `error` field of a response: a plain string or a tagged-dict
structure (§6 of the spec: `error: string | DictEnvelope`). -/
inductive ErrVal where
  | estr (s : String)
  | edict (keys : List String) (values : List WireJson)

/-- Truthiness of `response.error`: absent and `""` are falsy (so the branch
`if (!response || response.error)` is not taken), everything else truthy. -/
def errTruthy : Option ErrVal → Bool
  | none => false
  | some (.estr s) => s != ""
  | some (.edict _ _) => true

/-- A parsed callback-invocation response: `{callback, this, arguments,
callback_call_counter}` (rpc.js lines 305, 339-364). -/
structure CallbackInfo where
  callback : Nat
  thisE : Envelope
  argsE : Envelope
  counter : Option Nat

/-- A parsed JSON response body (§6 of the spec): an optional error (string or
dict), an optional sibling `message`, an optional callback request and an
optional terminal `result` envelope. -/
structure Response where
  error : Option ErrVal
  message : Option String
  callbackInfo : Option CallbackInfo
  result : Option Envelope

/-- Truthiness of `let callback = response && response.callback`
(rpc.js line 305): falsy when the response is missing, when it carries no
callback field, and — since handles are numbers — when the handle is `0`. -/
def callbackTruthy (r : Option Response) : Bool :=
  match r with
  | none => false
  | some r =>
      match r.callbackInfo with
      | none => false
      | some ci => ci.callback != 0

/-- The poll interval update of a dispatch cycle (rpc.js lines 307-315):
reset to 10 on a truthy callback or any non-poll command, otherwise double
while strictly below 1000. -/
def updatePollTimeout (resp : Option Response) (command : String) (pt : Nat) : Nat :=
  if callbackTruthy resp || (command != "callbacks_poll") then 10
  else if pt < 1000 then pt * 2
  else pt

/-- The poll timeout after a sequence of dispatch cycles, starting from the
initial value 10 (rpc.js line 275). -/
def pollAfter (cycles : List (Option Response × String)) : Nat :=
  cycles.foldl (fun pt c => updatePollTimeout c.1 c.2 pt) 10

/-- The poll timeouts reachable from the initial value. -/
def PollReach (pt : Nat) : Prop :=
  pt = 10 ∨ pt = 20 ∨ pt = 40 ∨ pt = 80 ∨ pt = 160 ∨ pt = 320 ∨ pt = 640 ∨
  pt = 1280

/-- One dispatch cycle preserves reachability of the poll timeout. -/
theorem updatePollTimeout_reach (resp : Option Response) (command : String)
    (pt : Nat) (h : PollReach pt) :
    PollReach (updatePollTimeout resp command pt) := by
  unfold updatePollTimeout
  split
  · exact Or.inl rfl
  · rcases h with rfl | rfl | rfl | rfl | rfl | rfl | rfl | rfl <;>
      simp [PollReach]

/-- Folding dispatch cycles preserves reachability. -/
theorem pollAfter_reach_aux (cycles : List (Option Response × String)) :
    ∀ pt : Nat, PollReach pt →
      PollReach (cycles.foldl (fun pt c => updatePollTimeout c.1 c.2 pt) pt) := by
  induction cycles with
  | nil => intro pt h; exact h
  | cons c cs ih =>
      intro pt h
      exact ih _ (updatePollTimeout_reach c.1 c.2 pt h)

/-- Claim C2 (amended): across every sequence of dispatch cycles the poll
timeout stays within [10, 1280]: it starts at 10, repeated idle polls double
it while it is below 1000 (so it reaches 1280 at most) and leave it unchanged
once it is at least 1000. -/
theorem pollTimeout_bounds (cycles : List (Option Response × String)) :
    10 ≤ pollAfter cycles ∧ pollAfter cycles ≤ 1280 := by
  have h : PollReach (pollAfter cycles) :=
    pollAfter_reach_aux cycles 10 (Or.inl rfl)
  rcases h with h | h | h | h | h | h | h | h <;> rw [h] <;> omega

/-- An idle poll cycle: a response with no error and no callback, polled by
the `callbacks_poll` command. -/
def idleCycle : Option Response × String :=
  (some ⟨none, none, none, none⟩, "callbacks_poll")

/-- Claim C2 counterexample: seven consecutive idle polls drive the poll
timeout from 10 to 1280, which exceeds the claimed ceiling 1000 — the code
doubles whenever the timeout is still below 1000 (640 doubles to 1280). -/
theorem pollTimeout_exceeds_1000 :
    pollAfter (List.replicate 7 idleCycle) = 1280 ∧ 1000 < 1280 := by
  constructor
  · decide
  · decide

/-- Claim C4 (amended): on every completed dispatch cycle, if the response
carried a callback request with a nonzero handle or the command was anything
other than `callbacks_poll`, the poll timeout is reset to 10; otherwise
(an idle poll, or a poll whose callback handle is the falsy number 0) it is
doubled when below 1000 and left unchanged otherwise. -/
theorem updatePollTimeout_rule (resp : Option Response) (command : String)
    (pt : Nat) :
    (callbackTruthy resp = true ∨ command ≠ "callbacks_poll" →
      updatePollTimeout resp command pt = 10) ∧
    (callbackTruthy resp = false → command = "callbacks_poll" →
      updatePollTimeout resp command pt = if pt < 1000 then pt * 2 else pt) := by
  constructor
  · intro h
    have hc : (callbackTruthy resp || (command != "callbacks_poll")) = true := by
      rcases h with h | h
      · simp [h]
      · simp [bne_iff_ne, h]
    simp [updatePollTimeout, hc]
  · intro h1 h2
    have hc : (callbackTruthy resp || (command != "callbacks_poll")) = false := by
      simp [h1, h2]
    simp [updatePollTimeout, hc]

/-- Witness for claim C4 (amended): a non-poll command resets the timeout. -/
theorem updatePollTimeout_rule_witness :
    updatePollTimeout none "create_realm" 640 = 10 :=
  (updatePollTimeout_rule none "create_realm" 640).1 (Or.inr (by decide))

/-- A poll response carrying a genuine callback request whose handle is 0
(the index of the first callback ever registered). -/
def zeroHandleResp : Option Response :=
  some ⟨none, none, some ⟨0, Envelope.undefTag, Envelope.arr [], some 1⟩, none⟩

/-- Claim C4 counterexample: (a) a `callbacks_poll` response carrying a
callback request with handle 0 does not reset the timeout to 10 — it doubles
it, because `response.callback` is the falsy number 0; (b) at the reachable
timeout 1280 an idle poll does not double the timeout (the claim's
"otherwise doubled") but leaves it unchanged. -/
theorem updatePollTimeout_counterexample :
    updatePollTimeout zeroHandleResp "callbacks_poll" 10 = 20 ∧
    updatePollTimeout (some ⟨none, none, none, none⟩) "callbacks_poll" 1280
      = 1280 ∧
    (20 : Nat) ≠ 10 ∧ (1280 : Nat) ≠ 2 * 1280 := by
  refine ⟨by decide, by decide, by decide, by decide⟩

/-- An ASCII letter, the character class of the regex `/^[a-z]+: /i`. -/
def isAsciiLetter (c : Char) : Bool :=
  ('a' ≤ c && c ≤ 'z') || ('A' ≤ c && c ≤ 'Z')

/-- `error.replace(/^[a-z]+: /i, '')` (rpc.js lines 322, 329) on the
character list: the anchored regex matches exactly when the maximal leading
letter run is nonempty and directly followed by `": "` (a shorter letter
prefix is followed by another letter, never by a colon), and the match —
letters plus `": "` — is removed. -/
def stripTagChars (l : List Char) : List Char :=
  let letters := l.takeWhile isAsciiLetter
  if letters.isEmpty then l
  else
    match l.drop letters.length with
    | ':' :: ' ' :: tail => tail
    | _ => l

/-- The error-message tag stripping, at the string level. -/
def stripErrorTag (s : String) : String := String.mk (stripTagChars s.data)

/-- The generic error message `Invalid response for "<command>"`
(rpc.js line 337). -/
def invalidResponseMsg (command : String) : String :=
  "Invalid response for \"" ++ command ++ "\""

/-- What the dispatcher's error branch raises (rpc.js lines 317-337): a plain
`Error` with a string message; a rich error built from a base message with the
deserialized dict's fields assigned onto it; or a crash — evaluating
`error.type` on `undefined` (missing response) throws a TypeError before any
`Error` is constructed. -/
inductive Outcome where
  | rstring (message : String)
  | rrich (baseMessage : String) (fields : List (String × JVal))
  | crash

/-- The message passed to `new Error(responeMessage)` in the dict case
(rpc.js lines 327-332): the stripped sibling `response.message` when present
and nonempty, otherwise `undefined`, which yields an empty message. -/
def siblingMessage : Option String → String
  | some m => if m = "" then "" else stripErrorTag m
  | none => ""

/-- The error branch of `sendRequest` (rpc.js lines 317-337), entered when the
response is missing or `response.error` is truthy.  A nonempty string error is
tag-stripped and raised, falling back to the generic message when stripping
leaves the empty (falsy) string; a `'dict'`-tagged error becomes a rich error
carrying the deserialized fields; a missing response leaves `error` as
`undefined`, and reading `error.type` on it faults. -/
def errorBranch (command : String) (error : Option ErrVal)
    (message : Option String) : Outcome :=
  match error with
  | some (.estr s) =>
      if s != "" then
        let stripped := stripErrorTag s
        if stripped != "" then .rstring stripped
        else .rstring (invalidResponseMsg command)
      else .rstring (invalidResponseMsg command)
  | some (.edict ks vs) =>
      .rrich (siblingMessage message) (deserializeJsonDict ks vs)
  | none => .crash

/-- The observable `message` of the rich error after
`Object.assign(exceptionToReport, responseError)` (rpc.js line 333): a
`message` key among the assigned fields overwrites the constructor message. -/
def richMessage (baseMessage : String) (fields : List (String × JVal)) : JVal :=
  match objGet fields "message" with
  | some v => v
  | none => .prim (.str baseMessage)

/-- Every key of the object built by `deserialize_json_value` comes from the
wire `keys` sequence. -/
theorem mem_keys_of_mem_deserializeJsonDict :
    ∀ (ks : List String) (vs : List WireJson) (p : String × JVal),
      p ∈ deserializeJsonDict ks vs → p.1 ∈ ks
  | [], _, p, h => by simp [deserializeJsonDict] at h
  | _ :: _, [], p, h => by simp [deserializeJsonDict] at h
  | k :: ks, w :: ws, p, h => by
      simp only [deserializeJsonDict, List.mem_cons] at h
      rcases h with rfl | h
      · exact List.mem_cons_self _ _
      · exact List.mem_cons_of_mem _
          (mem_keys_of_mem_deserializeJsonDict ks ws p h)

/-- `lookup` misses when no pair carries the key. -/
theorem lookup_eq_none_of_keys_ne {k : String} :
    ∀ l : List (String × JVal), (∀ p ∈ l, p.1 ≠ k) → l.lookup k = none
  | [], _ => rfl
  | (k', v) :: ps, h => by
      have hk : k' ≠ k := h (k', v) (List.mem_cons_self _ _)
      have hne : (k == k') = false := beq_eq_false_iff_ne.2 (Ne.symm hk)
      simp only [List.lookup, hne]
      exact lookup_eq_none_of_keys_ne ps
        (fun p hp => h p (List.mem_cons_of_mem _ hp))

/-- Claim C6 (amended): a nonempty plain-string error is raised with its
leading `"<Word>: "` tag stripped case-insensitively when the stripped
message is nonempty, and with the generic error naming the command when
stripping leaves the empty string; a structured dict error is raised as a
rich error whose base message is the stripped sibling `message` field (empty
when that field is absent or empty) and whose fields are all the fields of
the deserialized dict; the observable message is the base message unless the
dict itself carries a `message` field, which then takes precedence
unstripped. -/
theorem errorBranch_spec :
    (∀ (command s : String) (message : Option String), s ≠ "" →
      errorBranch command (some (.estr s)) message =
        (if stripErrorTag s ≠ "" then Outcome.rstring (stripErrorTag s)
         else Outcome.rstring (invalidResponseMsg command))) ∧
    (∀ (command : String) (ks : List String) (vs : List WireJson)
        (message : Option String),
      errorBranch command (some (.edict ks vs)) message =
        Outcome.rrich (siblingMessage message) (deserializeJsonDict ks vs) ∧
      ("message" ∉ ks →
        richMessage (siblingMessage message) (deserializeJsonDict ks vs) =
          JVal.prim (.str (siblingMessage message)))) := by
  constructor
  · intro command s message h
    by_cases h2 : stripErrorTag s = ""
    · simp [errorBranch, h, h2]
    · simp [errorBranch, h, h2]
  · intro command ks vs message
    refine ⟨rfl, ?_⟩
    intro hm
    have hnone : objGet (deserializeJsonDict ks vs) "message" = none := by
      unfold objGet
      apply lookup_eq_none_of_keys_ne
      intro p hp hk
      exact hm (hk ▸ mem_keys_of_mem_deserializeJsonDict ks vs p
        (List.mem_reverse.1 hp))
    simp [richMessage, hnone]

/-- Witness for claim C6 (amended): `"Error: boom"` is raised as `"boom"`. -/
theorem errorBranch_spec_witness :
    errorBranch "call_method" (some (.estr "Error: boom")) none
      = Outcome.rstring "boom" := by
  have h := errorBranch_spec.1 "call_method" "Error: boom" none (by decide)
  rw [h]
  rfl

/-- Claim C6 counterexample: the plain-string error `"Error: "` is all
prefix; stripping leaves the empty string and the dispatcher raises the
generic "Invalid response" error naming the command instead of an error
carrying the stripped message. -/
theorem errorBranch_counterexample :
    errorBranch "call_method" (some (.estr "Error: ")) none
      = Outcome.rstring (invalidResponseMsg "call_method") ∧
    invalidResponseMsg "call_method" ≠ stripErrorTag "Error: " := by
  exact ⟨rfl, by decide⟩

/-- The outcome of `fn.apply(thisObject, args)` (rpc.js line 347): a normal
return value, or a thrown exception carrying its `message`, its string
coercion `'' + e` (used when the message is falsy) and an optional `stack`. -/
inductive CallResult where
  | ok (v : Value)
  | exn (message : String) (str : String) (stack : Option String)

/-- The data object of the follow-up request
`{callback, result, error, stack, callback_call_counter}` (rpc.js line 364). -/
structure FollowupPayload where
  callback : Nat
  result : Option Envelope
  error : Option String
  stack : Option String
  counter : Option Nat

/-- Modelled from the spec: `JSON.stringify(e.stack)` (rpc.js line 355)
applies the external JavaScript JSON builtin to a string; modelled as quote
wrapping with escaping of backslash and quote. -/
def jsonEscape (c : Char) : List Char :=
  if c = '\\' then ['\\', '\\']
  else if c = '"' then ['\\', '"']
  else [c]

/-- JSON encoding of a string value. -/
def jsonStringify (s : String) : String :=
  String.mk ('"' :: (s.data.flatMap jsonEscape ++ ['"']))

/-- `if (e.stack) stack = JSON.stringify(e.stack)` (rpc.js lines 354-356):
only a truthy (nonempty) stack is encoded and carried. -/
def stackData : Option String → Option String
  | some s => if s != "" then some (jsonStringify s) else none
  | none => none

/-- The callback branch of `sendRequest` (rpc.js lines 339-358): decode
`this` and the arguments, look the handle up in the registry; invoke the
callback and serialize its return value, or capture a thrown exception's
message and stack as data; an unresolved handle produces the
"Unknown callback id" error string.  The callback itself is external
behavior, passed in as `applyFn`. -/
def callbackBranch (applyFn : Callback → Value → Value → CallResult)
    (regs : List Callback) (ci : CallbackInfo) :
    FollowupPayload × List Callback :=
  let thisObject := deserialize regs ci.thisE
  let args := deserialize regs ci.argsE
  match regs[ci.callback]? with
  | some fn =>
      match applyFn fn thisObject args with
      | .ok v =>
          let r := serialize regs v
          (⟨ci.callback, some r.1, none, none, ci.counter⟩, r.2)
      | .exn m st stk =>
          (⟨ci.callback, none, some (if m != "" then m else st),
            stackData stk, ci.counter⟩, regs)
  | none =>
      (⟨ci.callback, none,
        some ("Unknown callback id: " ++ toString ci.callback), none,
        ci.counter⟩, regs)

/-- The follow-up command selection (rpc.js lines 359-362). -/
def followupCommand (command : String) : String :=
  if command == "callbacks_poll" || command == "callback_poll_result"
  then "callback_poll_result" else "callback_result"

/-- What one `sendRequest` dispatch does with a parsed response: raise an
error outcome, issue a follow-up request (recursing), or return the terminal
`response.result` envelope to the caller. -/
inductive StepResult where
  | raise (o : Outcome)
  | followupReq (cmd : String) (payload : FollowupPayload)
      (regs : List Callback)
  | terminal (result : Option Envelope)

/-- One dispatch cycle of `sendRequest` after the transport returned
(rpc.js lines 305-367): the error branch when the response is missing or its
error is truthy; the callback branch when `response.callback != null`;
otherwise the terminal result. -/
def dispatchStep (applyFn : Callback → Value → Value → CallResult)
    (regs : List Callback) (command : String) (response : Option Response) :
    StepResult :=
  match response with
  | none => .raise (errorBranch command none none)
  | some r =>
      if errTruthy r.error then .raise (errorBranch command r.error r.message)
      else
        match r.callbackInfo with
        | some ci =>
            let p := callbackBranch applyFn regs ci
            .followupReq (followupCommand command) p.1 p.2
        | none => .terminal r.result

/-- What the original caller of `sendRequest` eventually observes. -/
inductive ChainResult where
  | finished (result : Option Envelope)
  | raised (o : Outcome)
  | exhausted

/-- The recursion of `sendRequest` (rpc.js line 364): each cycle consumes the
next transport response; a follow-up request continues the chain under the
follow-up command, a terminal result or raised error unwinds to the original
caller.  `exhausted` marks the end of the scripted response list. -/
def runChain (applyFn : Callback → Value → Value → CallResult) :
    List Callback → String → List (Option Response) → ChainResult
  | _, _, [] => .exhausted
  | regs, command, resp :: rest =>
      match dispatchStep applyFn regs command resp with
      | .terminal v => .finished v
      | .raise o => .raised o
      | .followupReq cmd _ regs2 => runChain applyFn regs2 cmd rest

/-- Claim C7, the code evaluated at the failing input: a missing response
does not raise the generic error naming the command — `error` is `undefined`
and the dict test `error.type` faults, so the dispatcher crashes with a
TypeError before the generic `Invalid response for "<command>"` error is
reached. -/
theorem missing_response_crashes
    (applyFn : Callback → Value → Value → CallResult)
    (regs : List Callback) (command : String) :
    dispatchStep applyFn regs command none = .raise Outcome.crash := rfl

/-- The dispatch of a callback-carrying response is a follow-up request built
by the callback branch under the follow-up command. -/
theorem dispatchStep_callback
    (applyFn : Callback → Value → Value → CallResult)
    (regs : List Callback) (command : String) (r : Response)
    (ci : CallbackInfo)
    (herr : errTruthy r.error = false)
    (hci : r.callbackInfo = some ci) :
    dispatchStep applyFn regs command (some r) =
      .followupReq (followupCommand command)
        (callbackBranch applyFn regs ci).1
        (callbackBranch applyFn regs ci).2 := by
  simp [dispatchStep, herr, hci]

/-- Claim C8: an exception thrown by a locally invoked callback is caught and
converted to its message (its string coercion when the message is empty) and
its JSON-encoded stack, carried as data in the follow-up request and never
raised locally; the original caller's outcome is exactly the outcome of the
rest of the chain. -/
theorem callback_exception_contained
    (applyFn : Callback → Value → Value → CallResult)
    (regs : List Callback) (command : String) (r : Response)
    (ci : CallbackInfo) (fn : Callback) (m st : String) (stk : Option String)
    (rest : List (Option Response))
    (herr : errTruthy r.error = false)
    (hci : r.callbackInfo = some ci)
    (hfn : regs[ci.callback]? = some fn)
    (happ : applyFn fn (deserialize regs ci.thisE) (deserialize regs ci.argsE)
      = .exn m st stk) :
    dispatchStep applyFn regs command (some r) =
      .followupReq (followupCommand command)
        ⟨ci.callback, none, some (if m != "" then m else st), stackData stk,
         ci.counter⟩ regs ∧
    (∀ o : Outcome, dispatchStep applyFn regs command (some r) ≠ .raise o) ∧
    runChain applyFn regs command (some r :: rest) =
      runChain applyFn regs (followupCommand command) rest := by
  have hcb : callbackBranch applyFn regs ci =
      (⟨ci.callback, none, some (if m != "" then m else st), stackData stk,
        ci.counter⟩, regs) := by
    simp [callbackBranch, hfn, happ]
  have hstep := dispatchStep_callback applyFn regs command r ci herr hci
  rw [hcb] at hstep
  refine ⟨hstep, ?_, ?_⟩
  · intro o h
    rw [hstep] at h
    exact StepResult.noConfusion h
  · simp only [runChain, hstep]

/-- Witness for claim C8: a concrete throwing callback produces the follow-up
chain continuation. -/
theorem callback_exception_contained_witness :
    runChain (fun _ _ _ => CallResult.exn "boom" "Error: boom" (some "stk"))
      [⟨7, false⟩] "call_method"
      [some ⟨none, none, some ⟨0, .undefTag, .arr [], some 2⟩, none⟩,
       some ⟨none, none, none, some (.prim (.num 3))⟩] =
    runChain (fun _ _ _ => CallResult.exn "boom" "Error: boom" (some "stk"))
      [⟨7, false⟩] "callback_result"
      [some ⟨none, none, none, some (.prim (.num 3))⟩] :=
  (callback_exception_contained
    (fun _ _ _ => CallResult.exn "boom" "Error: boom" (some "stk"))
    [⟨7, false⟩] "call_method"
    ⟨none, none, some ⟨0, .undefTag, .arr [], some 2⟩, none⟩
    ⟨0, .undefTag, .arr [], some 2⟩ ⟨7, false⟩ "boom" "Error: boom"
    (some "stk")
    [some ⟨none, none, none, some (.prim (.num 3))⟩]
    rfl rfl rfl rfl).2.2

/-- Claim C9: every callback-request outcome issues a follow-up request whose
command is `callback_poll_result` exactly when the triggering command was
`callbacks_poll` or `callback_poll_result` and `callback_result` otherwise,
and whose payload carries the callback handle, the outcome (a result or an
error) and the echoed `callback_call_counter`. -/
theorem callback_followup_spec
    (applyFn : Callback → Value → Value → CallResult)
    (regs : List Callback) (command : String) (r : Response)
    (ci : CallbackInfo)
    (herr : errTruthy r.error = false)
    (hci : r.callbackInfo = some ci) :
    dispatchStep applyFn regs command (some r) =
      .followupReq (followupCommand command)
        (callbackBranch applyFn regs ci).1
        (callbackBranch applyFn regs ci).2 ∧
    (followupCommand command = "callback_poll_result" ↔
      (command = "callbacks_poll" ∨ command = "callback_poll_result")) ∧
    (callbackBranch applyFn regs ci).1.callback = ci.callback ∧
    (callbackBranch applyFn regs ci).1.counter = ci.counter ∧
    ((callbackBranch applyFn regs ci).1.result.isSome ∨
      (callbackBranch applyFn regs ci).1.error.isSome) := by
  refine ⟨dispatchStep_callback applyFn regs command r ci herr hci, ?_, ?_⟩
  · constructor
    · intro h
      by_cases h1 : command = "callbacks_poll"
      · exact Or.inl h1
      · by_cases h2 : command = "callback_poll_result"
        · exact Or.inr h2
        · exfalso
          simp [followupCommand, h1, h2] at h
    · intro h
      rcases h with h | h <;> simp [followupCommand, h]
  · cases hfn : regs[ci.callback]? with
    | none => simp [callbackBranch, hfn]
    | some fn =>
        cases happ : applyFn fn (deserialize regs ci.thisE)
            (deserialize regs ci.argsE) with
        | ok v => simp [callbackBranch, hfn, happ]
        | exn m st stk => simp [callbackBranch, hfn, happ]

/-- Witness for claim C9: the echoed counter of a concrete poll-triggered
callback request. -/
theorem callback_followup_spec_witness :
    (callbackBranch (fun _ _ v => CallResult.ok v) []
      ⟨3, .undefTag, .arr [], some 9⟩).1.counter = some 9 :=
  (callback_followup_spec (fun _ _ v => CallResult.ok v) [] "callbacks_poll"
    ⟨none, none, some ⟨3, .undefTag, .arr [], some 9⟩, none⟩
    ⟨3, .undefTag, .arr [], some 9⟩ rfl rfl).2.2.2.1

end RealmRpc
